import Mathlib

/-
Shallow embedding of the Soroban token-swap contract in
src/contracts/hello-world/src/lib.rs.

The contract keeps a single record (the liquidity pool) under one fixed
storage key; we model the store as `Option LiquidityPool` (`none` = no record
written yet).  Each contract entry point becomes a pure function from the
stored state (and its arguments) to `Except ContractError` of the new stored
state and return value.  A Rust `panic` aborts the whole Soroban transaction
with no state change, which the `Except` error branch captures: an error
result carries no new state, so the stored record is untouched.

Rust `i128` arithmetic: division truncates toward zero (`Int.tdiv`) and traps
on a zero divisor.  The reserves are `i128` and the swap counter is `u64`.
-/

namespace TokenSwap

def i128Min : Int := -(2 ^ 127)

def i128Max : Int := 2 ^ 127 - 1

def u64Max : Nat := 2 ^ 64 - 1

/-- Mirrors the Rust struct `LiquidityPool` (reserves are `i128`, the swap
counter is `u64`; we carry them as unbounded `Int`/`Nat` and make every
arithmetic step range-checked). -/
structure LiquidityPool where
  token_a_reserve : Int
  token_b_reserve : Int
  total_swaps : Nat
deriving DecidableEq, Repr

/-- Failure outcomes of the contract's entry points.  In the Rust source each
is a `panic` with a distinct message; the arithmetic traps come from the
checked `i128`/`u64` operations. -/
inductive ContractError where
  | AlreadyInitialized
  | InvalidAmount
  | PoolNotInitialized
  | Overflow
  | DivisionByZero
deriving DecidableEq, Repr

/-- Modelled from the spec: the build profile that fixes Rust's
integer-overflow behavior (its `overflow-checks` flag) is not under `src/`;
spec §4.2 requires the implementation to error rather than wrap when an
`i128` computation leaves the signed 128-bit range, so each arithmetic step
traps (aborting the call) when its exact result is out of range. -/
def checkedI128 (x : Int) : Except ContractError Int :=
  if i128Min ≤ x ∧ x ≤ i128Max then .ok x else .error .Overflow

def checkedMul (x y : Int) : Except ContractError Int :=
  checkedI128 (x * y)

def checkedAdd (x y : Int) : Except ContractError Int :=
  checkedI128 (x + y)

def checkedSub (x y : Int) : Except ContractError Int :=
  checkedI128 (x - y)

/-- Rust `i128` division: truncates toward zero, traps on a zero divisor
(and on `i128Min / -1`, the one quotient that leaves the range). -/
def checkedDiv (x y : Int) : Except ContractError Int :=
  if y = 0 then .error .DivisionByZero else checkedI128 (x.tdiv y)

/-- Rust `u64` increment of the swap counter, trapping at the type's
maximum. -/
def checkedIncU64 (n : Nat) : Except ContractError Nat :=
  if n + 1 ≤ u64Max then .ok (n + 1) else .error .Overflow

/-- Mirrors `view_pool`: the stored record, or an all-zero default when no
record exists.  Read-only by construction (it does not produce a state). -/
def view_pool (s : Option LiquidityPool) : LiquidityPool :=
  s.getD { token_a_reserve := 0, token_b_reserve := 0, total_swaps := 0 }

/-- Mirrors `initialize_pool`: fails if a record already exists (checked
first, before the amount validation), then fails on any non-positive amount,
otherwise writes the fresh record with a zero swap counter. -/
def initialize_pool (s : Option LiquidityPool) (token_a_amount token_b_amount : Int) :
    Except ContractError (Option LiquidityPool) :=
  match s with
  | some _ => .error .AlreadyInitialized
  | none =>
      if token_a_amount ≤ 0 ∨ token_b_amount ≤ 0 then
        .error .InvalidAmount
      else
        .ok (some { token_a_reserve := token_a_amount,
                    token_b_reserve := token_b_amount,
                    total_swaps := 0 })

/-- Mirrors `swap_a_for_b`: validates the input amount, reads the pool via
`view_pool`, rejects a pool with a zero reserve (the Rust guard tests
equality with zero, not positivity), computes
`(amount_a_in * token_b_reserve) / (token_a_reserve + amount_a_in)` against
the pre-update reserves, then applies the three field updates and returns the
output amount together with the newly stored record. -/
def swap_a_for_b (s : Option LiquidityPool) (amount_a_in : Int) :
    Except ContractError (Option LiquidityPool × Int) :=
  if amount_a_in ≤ 0 then .error .InvalidAmount
  else
    let pool := view_pool s
    if pool.token_a_reserve = 0 ∨ pool.token_b_reserve = 0 then
      .error .PoolNotInitialized
    else
      match checkedMul amount_a_in pool.token_b_reserve with
      | .error e => .error e
      | .ok num =>
        match checkedAdd pool.token_a_reserve amount_a_in with
        | .error e => .error e
        | .ok den =>
          match checkedDiv num den with
          | .error e => .error e
          | .ok amount_b_out =>
            match checkedAdd pool.token_a_reserve amount_a_in with
            | .error e => .error e
            | .ok new_a =>
              match checkedSub pool.token_b_reserve amount_b_out with
              | .error e => .error e
              | .ok new_b =>
                match checkedIncU64 pool.total_swaps with
                | .error e => .error e
                | .ok new_swaps =>
                  .ok (some { token_a_reserve := new_a,
                              token_b_reserve := new_b,
                              total_swaps := new_swaps }, amount_b_out)

/-- Mirrors `swap_b_for_a`: symmetric to `swap_a_for_b` with the roles of the
two reserves exchanged. -/
def swap_b_for_a (s : Option LiquidityPool) (amount_b_in : Int) :
    Except ContractError (Option LiquidityPool × Int) :=
  if amount_b_in ≤ 0 then .error .InvalidAmount
  else
    let pool := view_pool s
    if pool.token_a_reserve = 0 ∨ pool.token_b_reserve = 0 then
      .error .PoolNotInitialized
    else
      match checkedMul amount_b_in pool.token_a_reserve with
      | .error e => .error e
      | .ok num =>
        match checkedAdd pool.token_b_reserve amount_b_in with
        | .error e => .error e
        | .ok den =>
          match checkedDiv num den with
          | .error e => .error e
          | .ok amount_a_out =>
            match checkedAdd pool.token_b_reserve amount_b_in with
            | .error e => .error e
            | .ok new_b =>
              match checkedSub pool.token_a_reserve amount_a_out with
              | .error e => .error e
              | .ok new_a =>
                match checkedIncU64 pool.total_swaps with
                | .error e => .error e
                | .ok new_swaps =>
                  .ok (some { token_a_reserve := new_a,
                              token_b_reserve := new_b,
                              total_swaps := new_swaps }, amount_a_out)

/-- The spec's `Active` pool state: both reserves strictly positive. -/
def Active (p : LiquidityPool) : Prop :=
  0 < p.token_a_reserve ∧ 0 < p.token_b_reserve

instance (p : LiquidityPool) : Decidable (Active p) := by
  unfold Active; infer_instance

/-- The constant-product invariant quantity. -/
def reserveProduct (p : LiquidityPool) : Int :=
  p.token_a_reserve * p.token_b_reserve

end TokenSwap

deriving instance DecidableEq for Except

namespace TokenSwap

theorem i128Min_neg : i128Min < 0 := by norm_num [i128Min]

theorem checkedI128_ok {x : Int} (h1 : i128Min ≤ x) (h2 : x ≤ i128Max) :
    checkedI128 x = .ok x := if_pos ⟨h1, h2⟩

theorem checkedMul_ok {x y : Int} (h1 : i128Min ≤ x * y) (h2 : x * y ≤ i128Max) :
    checkedMul x y = .ok (x * y) := checkedI128_ok h1 h2

theorem checkedAdd_ok {x y : Int} (h1 : i128Min ≤ x + y) (h2 : x + y ≤ i128Max) :
    checkedAdd x y = .ok (x + y) := checkedI128_ok h1 h2

theorem checkedSub_ok {x y : Int} (h1 : i128Min ≤ x - y) (h2 : x - y ≤ i128Max) :
    checkedSub x y = .ok (x - y) := checkedI128_ok h1 h2

theorem checkedDiv_ok {x y : Int} (hy : y ≠ 0)
    (h1 : i128Min ≤ x.tdiv y) (h2 : x.tdiv y ≤ i128Max) :
    checkedDiv x y = .ok (x.tdiv y) := by
  unfold checkedDiv
  rw [if_neg hy]
  exact checkedI128_ok h1 h2

theorem checkedIncU64_ok {n : Nat} (h : n + 1 ≤ u64Max) :
    checkedIncU64 n = .ok (n + 1) := if_pos h

theorem checkedI128_ok_inv {x v : Int} (h : checkedI128 x = .ok v) :
    v = x ∧ i128Min ≤ x ∧ x ≤ i128Max := by
  unfold checkedI128 at h
  split_ifs at h with hr
  exact ⟨(Except.ok.inj h).symm, hr.1, hr.2⟩

theorem checkedDiv_ok_inv {x y v : Int} (h : checkedDiv x y = .ok v) :
    y ≠ 0 ∧ v = x.tdiv y := by
  unfold checkedDiv at h
  split_ifs at h with hy
  exact ⟨hy, (checkedI128_ok_inv h).1⟩

theorem checkedIncU64_ok_inv {n v : Nat} (h : checkedIncU64 n = .ok v) :
    v = n + 1 := by
  unfold checkedIncU64 at h
  split_ifs at h with hr
  exact (Except.ok.inj h).symm

/-- Success characterization of `swap_a_for_b` on an `Active` pool when every
intermediate value stays in range: the returned amount is the truncating
division of the pricing formula against the pre-update reserves, and the new
record applies the three field updates. -/
theorem swap_a_for_b_spec (p : LiquidityPool) (x : Int)
    (hx : 0 < x) (ha : 0 < p.token_a_reserve) (hb : 0 < p.token_b_reserve)
    (hmul : x * p.token_b_reserve ≤ i128Max)
    (hden : p.token_a_reserve + x ≤ i128Max)
    (hsw : p.total_swaps + 1 ≤ u64Max) :
    swap_a_for_b (some p) x =
      .ok (some { token_a_reserve := p.token_a_reserve + x,
                  token_b_reserve :=
                    p.token_b_reserve - (x * p.token_b_reserve).tdiv (p.token_a_reserve + x),
                  total_swaps := p.total_swaps + 1 },
           (x * p.token_b_reserve).tdiv (p.token_a_reserve + x)) := by
  have hmin := i128Min_neg
  have hden0 : 0 < p.token_a_reserve + x := by omega
  have hnum0 : (0:Int) ≤ x * p.token_b_reserve := by positivity
  have htd : (x * p.token_b_reserve).tdiv (p.token_a_reserve + x)
      = (x * p.token_b_reserve) / (p.token_a_reserve + x) :=
    Int.tdiv_eq_ediv hnum0 hden0.le
  have hout0 : 0 ≤ (x * p.token_b_reserve).tdiv (p.token_a_reserve + x) :=
    Int.tdiv_nonneg hnum0 hden0.le
  have houtb : (x * p.token_b_reserve).tdiv (p.token_a_reserve + x) < p.token_b_reserve := by
    rw [htd]
    exact (Int.ediv_lt_iff_lt_mul hden0).2 (by nlinarith)
  have houtle : (x * p.token_b_reserve).tdiv (p.token_a_reserve + x) ≤ x * p.token_b_reserve := by
    rw [htd]
    exact Int.ediv_le_self _ hnum0
  have hble : p.token_b_reserve ≤ x * p.token_b_reserve := by nlinarith
  unfold swap_a_for_b
  rw [if_neg (by omega)]
  simp only [view_pool, Option.getD_some]
  rw [if_neg (by push_neg; omega)]
  rw [checkedMul_ok (by omega) hmul]
  dsimp only
  rw [checkedAdd_ok (by omega) hden]
  dsimp only
  rw [checkedDiv_ok (by omega) (by omega) (by omega)]
  dsimp only
  rw [checkedSub_ok (by omega) (by omega)]
  dsimp only
  rw [checkedIncU64_ok hsw]

/-- Success characterization of `swap_b_for_a`, symmetric to
`swap_a_for_b_spec`. -/
theorem swap_b_for_a_spec (p : LiquidityPool) (y : Int)
    (hy : 0 < y) (ha : 0 < p.token_a_reserve) (hb : 0 < p.token_b_reserve)
    (hmul : y * p.token_a_reserve ≤ i128Max)
    (hden : p.token_b_reserve + y ≤ i128Max)
    (hsw : p.total_swaps + 1 ≤ u64Max) :
    swap_b_for_a (some p) y =
      .ok (some { token_a_reserve :=
                    p.token_a_reserve - (y * p.token_a_reserve).tdiv (p.token_b_reserve + y),
                  token_b_reserve := p.token_b_reserve + y,
                  total_swaps := p.total_swaps + 1 },
           (y * p.token_a_reserve).tdiv (p.token_b_reserve + y)) := by
  have hmin := i128Min_neg
  have hden0 : 0 < p.token_b_reserve + y := by omega
  have hnum0 : (0:Int) ≤ y * p.token_a_reserve := by positivity
  have htd : (y * p.token_a_reserve).tdiv (p.token_b_reserve + y)
      = (y * p.token_a_reserve) / (p.token_b_reserve + y) :=
    Int.tdiv_eq_ediv hnum0 hden0.le
  have hout0 : 0 ≤ (y * p.token_a_reserve).tdiv (p.token_b_reserve + y) :=
    Int.tdiv_nonneg hnum0 hden0.le
  have houta : (y * p.token_a_reserve).tdiv (p.token_b_reserve + y) < p.token_a_reserve := by
    rw [htd]
    exact (Int.ediv_lt_iff_lt_mul hden0).2 (by nlinarith)
  have houtle : (y * p.token_a_reserve).tdiv (p.token_b_reserve + y) ≤ y * p.token_a_reserve := by
    rw [htd]
    exact Int.ediv_le_self _ hnum0
  have hale : p.token_a_reserve ≤ y * p.token_a_reserve := by nlinarith
  unfold swap_b_for_a
  rw [if_neg (by omega)]
  simp only [view_pool, Option.getD_some]
  rw [if_neg (by push_neg; omega)]
  rw [checkedMul_ok (by omega) hmul]
  dsimp only
  rw [checkedAdd_ok (by omega) hden]
  dsimp only
  rw [checkedDiv_ok (by omega) (by omega) (by omega)]
  dsimp only
  rw [checkedSub_ok (by omega) (by omega)]
  dsimp only
  rw [checkedIncU64_ok hsw]

/-- Inversion: a successful `swap_a_for_b` implies the guards passed, the
returned amount is given by the pricing formula against the pre-update
reserves, and the stored record applies the three field updates. -/
theorem swap_a_for_b_ok_inv {p : LiquidityPool} {x : Int}
    {s' : Option LiquidityPool} {out : Int}
    (h : swap_a_for_b (some p) x = .ok (s', out)) :
    0 < x ∧ p.token_a_reserve ≠ 0 ∧ p.token_b_reserve ≠ 0 ∧
    out = (x * p.token_b_reserve).tdiv (p.token_a_reserve + x) ∧
    s' = some { token_a_reserve := p.token_a_reserve + x,
                token_b_reserve := p.token_b_reserve - out,
                total_swaps := p.total_swaps + 1 } := by
  unfold swap_a_for_b at h
  simp only [view_pool, Option.getD_some] at h
  split_ifs at h with h1 h2
  rcases hm : checkedMul x p.token_b_reserve with e | num
  · rw [hm] at h; exact Except.noConfusion h
  rw [hm] at h; dsimp only at h
  rcases hd : checkedAdd p.token_a_reserve x with e | den
  · rw [hd] at h; exact Except.noConfusion h
  rw [hd] at h; dsimp only at h
  rcases hq : checkedDiv num den with e | q
  · rw [hq] at h; exact Except.noConfusion h
  rw [hq] at h; dsimp only at h
  rcases hsb : checkedSub p.token_b_reserve q with e | nb
  · rw [hsb] at h; exact Except.noConfusion h
  rw [hsb] at h; dsimp only at h
  rcases hi : checkedIncU64 p.total_swaps with e | ns
  · rw [hi] at h; exact Except.noConfusion h
  rw [hi] at h; dsimp only at h
  obtain ⟨hnum, -, -⟩ := checkedI128_ok_inv hm
  obtain ⟨hden, -, -⟩ := checkedI128_ok_inv hd
  obtain ⟨-, hqv⟩ := checkedDiv_ok_inv hq
  obtain ⟨hnb, -, -⟩ := checkedI128_ok_inv hsb
  have hns := checkedIncU64_ok_inv hi
  have hp := Except.ok.inj h
  obtain ⟨hs', hout⟩ := Prod.mk.inj hp
  push_neg at h2
  subst hnum hden hqv hnb hns
  refine ⟨by omega, h2.1, h2.2, ?_, ?_⟩
  · exact hout.symm
  · rw [← hs', ← hout]

/-- Inversion for `swap_b_for_a`, symmetric to `swap_a_for_b_ok_inv`. -/
theorem swap_b_for_a_ok_inv {p : LiquidityPool} {y : Int}
    {s' : Option LiquidityPool} {out : Int}
    (h : swap_b_for_a (some p) y = .ok (s', out)) :
    0 < y ∧ p.token_a_reserve ≠ 0 ∧ p.token_b_reserve ≠ 0 ∧
    out = (y * p.token_a_reserve).tdiv (p.token_b_reserve + y) ∧
    s' = some { token_a_reserve := p.token_a_reserve - out,
                token_b_reserve := p.token_b_reserve + y,
                total_swaps := p.total_swaps + 1 } := by
  unfold swap_b_for_a at h
  simp only [view_pool, Option.getD_some] at h
  split_ifs at h with h1 h2
  rcases hm : checkedMul y p.token_a_reserve with e | num
  · rw [hm] at h; exact Except.noConfusion h
  rw [hm] at h; dsimp only at h
  rcases hd : checkedAdd p.token_b_reserve y with e | den
  · rw [hd] at h; exact Except.noConfusion h
  rw [hd] at h; dsimp only at h
  rcases hq : checkedDiv num den with e | q
  · rw [hq] at h; exact Except.noConfusion h
  rw [hq] at h; dsimp only at h
  rcases hsb : checkedSub p.token_a_reserve q with e | na
  · rw [hsb] at h; exact Except.noConfusion h
  rw [hsb] at h; dsimp only at h
  rcases hi : checkedIncU64 p.total_swaps with e | ns
  · rw [hi] at h; exact Except.noConfusion h
  rw [hi] at h; dsimp only at h
  obtain ⟨hnum, -, -⟩ := checkedI128_ok_inv hm
  obtain ⟨hden, -, -⟩ := checkedI128_ok_inv hd
  obtain ⟨-, hqv⟩ := checkedDiv_ok_inv hq
  obtain ⟨hna, -, -⟩ := checkedI128_ok_inv hsb
  have hns := checkedIncU64_ok_inv hi
  have hp := Except.ok.inj h
  obtain ⟨hs', hout⟩ := Prod.mk.inj hp
  push_neg at h2
  subst hnum hden hqv hna hns
  refine ⟨by omega, h2.1, h2.2, ?_, ?_⟩
  · exact hout.symm
  · rw [← hs', ← hout]

theorem swap_a_for_b_nonpos {s : Option LiquidityPool} {x : Int} (hx : x ≤ 0) :
    swap_a_for_b s x = .error .InvalidAmount := by
  unfold swap_a_for_b
  rw [if_pos hx]

theorem swap_b_for_a_nonpos {s : Option LiquidityPool} {y : Int} (hy : y ≤ 0) :
    swap_b_for_a s y = .error .InvalidAmount := by
  unfold swap_b_for_a
  rw [if_pos hy]

theorem swap_a_for_b_zero_reserve {s : Option LiquidityPool} {x : Int} (hx : 0 < x)
    (hz : (view_pool s).token_a_reserve = 0 ∨ (view_pool s).token_b_reserve = 0) :
    swap_a_for_b s x = .error .PoolNotInitialized := by
  unfold swap_a_for_b
  rw [if_neg (by omega)]
  dsimp only
  rw [if_pos hz]

theorem swap_b_for_a_zero_reserve {s : Option LiquidityPool} {y : Int} (hy : 0 < y)
    (hz : (view_pool s).token_a_reserve = 0 ∨ (view_pool s).token_b_reserve = 0) :
    swap_b_for_a s y = .error .PoolNotInitialized := by
  unfold swap_b_for_a
  rw [if_neg (by omega)]
  dsimp only
  rw [if_pos hz]

/-- Everything a successful `swap_a_for_b` from an `Active` pool yields:
output bounds, the exact post-state, the pricing formula, that the new pool
is again `Active`, and that the reserve product did not decrease. -/
theorem swap_a_for_b_active_post {p p' : LiquidityPool} {x out : Int}
    (hA : Active p) (h : swap_a_for_b (some p) x = .ok (some p', out)) :
    0 < x ∧ 0 ≤ out ∧ out < p.token_b_reserve ∧
    out = (x * p.token_b_reserve).tdiv (p.token_a_reserve + x) ∧
    p' = { token_a_reserve := p.token_a_reserve + x,
           token_b_reserve := p.token_b_reserve - out,
           total_swaps := p.total_swaps + 1 } ∧
    Active p' ∧ reserveProduct p ≤ reserveProduct p' := by
  obtain ⟨ha, hb⟩ := hA
  obtain ⟨hx, -, -, hout, hs'⟩ := swap_a_for_b_ok_inv h
  have hp' := Option.some.inj hs'
  have hden0 : 0 < p.token_a_reserve + x := by omega
  have hnum0 : (0:Int) ≤ x * p.token_b_reserve := by positivity
  have htd : (x * p.token_b_reserve).tdiv (p.token_a_reserve + x)
      = (x * p.token_b_reserve) / (p.token_a_reserve + x) :=
    Int.tdiv_eq_ediv hnum0 hden0.le
  have hout0 : 0 ≤ out := by
    rw [hout]
    exact Int.tdiv_nonneg hnum0 hden0.le
  have houtb : out < p.token_b_reserve := by
    rw [hout, htd]
    exact (Int.ediv_lt_iff_lt_mul hden0).2 (by nlinarith)
  have hkey : (p.token_a_reserve + x) * out ≤ x * p.token_b_reserve := by
    rw [hout, htd, mul_comm]
    exact Int.ediv_mul_le _ hden0.ne'
  have hprod : reserveProduct p ≤ reserveProduct p' := by
    rw [hp']
    unfold reserveProduct
    dsimp only
    nlinarith
  refine ⟨hx, hout0, houtb, hout, hp', ⟨?_, ?_⟩, hprod⟩
  · rw [hp']; dsimp only; omega
  · rw [hp']; dsimp only; omega

/-- Symmetric to `swap_a_for_b_active_post`. -/
theorem swap_b_for_a_active_post {p p' : LiquidityPool} {y out : Int}
    (hA : Active p) (h : swap_b_for_a (some p) y = .ok (some p', out)) :
    0 < y ∧ 0 ≤ out ∧ out < p.token_a_reserve ∧
    out = (y * p.token_a_reserve).tdiv (p.token_b_reserve + y) ∧
    p' = { token_a_reserve := p.token_a_reserve - out,
           token_b_reserve := p.token_b_reserve + y,
           total_swaps := p.total_swaps + 1 } ∧
    Active p' ∧ reserveProduct p ≤ reserveProduct p' := by
  obtain ⟨ha, hb⟩ := hA
  obtain ⟨hy, -, -, hout, hs'⟩ := swap_b_for_a_ok_inv h
  have hp' := Option.some.inj hs'
  have hden0 : 0 < p.token_b_reserve + y := by omega
  have hnum0 : (0:Int) ≤ y * p.token_a_reserve := by positivity
  have htd : (y * p.token_a_reserve).tdiv (p.token_b_reserve + y)
      = (y * p.token_a_reserve) / (p.token_b_reserve + y) :=
    Int.tdiv_eq_ediv hnum0 hden0.le
  have hout0 : 0 ≤ out := by
    rw [hout]
    exact Int.tdiv_nonneg hnum0 hden0.le
  have houta : out < p.token_a_reserve := by
    rw [hout, htd]
    exact (Int.ediv_lt_iff_lt_mul hden0).2 (by nlinarith)
  have hkey : (p.token_b_reserve + y) * out ≤ y * p.token_a_reserve := by
    rw [hout, htd, mul_comm]
    exact Int.ediv_mul_le _ hden0.ne'
  have hprod : reserveProduct p ≤ reserveProduct p' := by
    rw [hp']
    unfold reserveProduct
    dsimp only
    nlinarith
  refine ⟨hy, hout0, houta, hout, hp', ⟨?_, ?_⟩, hprod⟩
  · rw [hp']; dsimp only; omega
  · rw [hp']; dsimp only; omega

theorem swap_a_for_b_mul_overflow {p : LiquidityPool} {x : Int} (hx : 0 < x)
    (ha : p.token_a_reserve ≠ 0) (hb : p.token_b_reserve ≠ 0)
    (hov : ¬(i128Min ≤ x * p.token_b_reserve ∧ x * p.token_b_reserve ≤ i128Max)) :
    swap_a_for_b (some p) x = .error .Overflow := by
  unfold swap_a_for_b
  rw [if_neg (by omega)]
  simp only [view_pool, Option.getD_some]
  rw [if_neg (not_or.mpr ⟨ha, hb⟩)]
  have hm : checkedMul x p.token_b_reserve = .error .Overflow := by
    unfold checkedMul checkedI128
    rw [if_neg hov]
  rw [hm]

theorem swap_b_for_a_mul_overflow {p : LiquidityPool} {y : Int} (hy : 0 < y)
    (ha : p.token_a_reserve ≠ 0) (hb : p.token_b_reserve ≠ 0)
    (hov : ¬(i128Min ≤ y * p.token_a_reserve ∧ y * p.token_a_reserve ≤ i128Max)) :
    swap_b_for_a (some p) y = .error .Overflow := by
  unfold swap_b_for_a
  rw [if_neg (by omega)]
  simp only [view_pool, Option.getD_some]
  rw [if_neg (not_or.mpr ⟨ha, hb⟩)]
  have hm : checkedMul y p.token_a_reserve = .error .Overflow := by
    unfold checkedMul checkedI128
    rw [if_neg hov]
  rw [hm]

set_option maxRecDepth 8000

/-- C1 (counterexample): on the Active pool `{1, 2^126, 0}` with input `4`
the intermediate multiplication `4 * 2^126 = 2^128` leaves the `i128` range,
so the call aborts with an overflow error instead of returning the floor of
the pricing formula, refuting the claim's unconditional quantification. -/
theorem claim_C1_counterexample :
    swap_a_for_b (some { token_a_reserve := 1, token_b_reserve := 2 ^ 126, total_swaps := 0 }) 4
      = .error .Overflow ∧
    swap_a_for_b (some { token_a_reserve := 1, token_b_reserve := 2 ^ 126, total_swaps := 0 }) 4
      ≠ .ok (some { token_a_reserve := 1 + 4,
                    token_b_reserve := 2 ^ 126 - ((4 * 2 ^ 126 : Int)).fdiv (1 + 4),
                    total_swaps := 1 }, ((4 * 2 ^ 126 : Int)).fdiv (1 + 4)) := by
  constructor <;> decide

/-- C1 (amended): on every Active pool, for every positive input whose
intermediate multiplication, updated reserve sum, and incremented swap
counter all stay in range, `swap_a_for_b` returns exactly the floor of
`amount_a_in * token_b_reserve / (token_a_reserve + amount_a_in)` computed
against the pre-update reserves, and `swap_b_for_a` the symmetric floor; in
particular `initialize_pool(1000, 1000)` then `swap_a_for_b(100)` returns
`90`. -/
theorem claim_C1_swap_pricing :
    (∀ (p : LiquidityPool) (x : Int), Active p → 0 < x →
      x * p.token_b_reserve ≤ i128Max → p.token_a_reserve + x ≤ i128Max →
      p.total_swaps + 1 ≤ u64Max →
      swap_a_for_b (some p) x =
        .ok (some { token_a_reserve := p.token_a_reserve + x,
                    token_b_reserve := p.token_b_reserve -
                      (x * p.token_b_reserve).fdiv (p.token_a_reserve + x),
                    total_swaps := p.total_swaps + 1 },
             (x * p.token_b_reserve).fdiv (p.token_a_reserve + x))) ∧
    (∀ (p : LiquidityPool) (y : Int), Active p → 0 < y →
      y * p.token_a_reserve ≤ i128Max → p.token_b_reserve + y ≤ i128Max →
      p.total_swaps + 1 ≤ u64Max →
      swap_b_for_a (some p) y =
        .ok (some { token_a_reserve := p.token_a_reserve -
                      (y * p.token_a_reserve).fdiv (p.token_b_reserve + y),
                    token_b_reserve := p.token_b_reserve + y,
                    total_swaps := p.total_swaps + 1 },
             (y * p.token_a_reserve).fdiv (p.token_b_reserve + y))) ∧
    initialize_pool none 1000 1000 =
      .ok (some { token_a_reserve := 1000, token_b_reserve := 1000, total_swaps := 0 }) ∧
    swap_a_for_b (some { token_a_reserve := 1000, token_b_reserve := 1000, total_swaps := 0 }) 100 =
      .ok (some { token_a_reserve := 1100, token_b_reserve := 910, total_swaps := 1 }, 90) := by
  refine ⟨?_, ?_, by decide, by decide⟩
  · intro p x hA hx hmul hden hsw
    have hden0 : 0 < p.token_a_reserve + x := by have := hA.1; omega
    have hnum0 : (0:Int) ≤ x * p.token_b_reserve := by
      have := hA.2; positivity
    have hfd : (x * p.token_b_reserve).fdiv (p.token_a_reserve + x)
        = (x * p.token_b_reserve).tdiv (p.token_a_reserve + x) := by
      rw [Int.fdiv_eq_ediv _ hden0.le, Int.tdiv_eq_ediv hnum0 hden0.le]
    rw [hfd]
    exact swap_a_for_b_spec p x hx hA.1 hA.2 hmul hden hsw
  · intro p y hA hy hmul hden hsw
    have hden0 : 0 < p.token_b_reserve + y := by have := hA.2; omega
    have hnum0 : (0:Int) ≤ y * p.token_a_reserve := by
      have := hA.1; positivity
    have hfd : (y * p.token_a_reserve).fdiv (p.token_b_reserve + y)
        = (y * p.token_a_reserve).tdiv (p.token_b_reserve + y) := by
      rw [Int.fdiv_eq_ediv _ hden0.le, Int.tdiv_eq_ediv hnum0 hden0.le]
    rw [hfd]
    exact swap_b_for_a_spec p y hy hA.1 hA.2 hmul hden hsw

/-- C1 witness: the amended pricing statement instantiated at the spec's own
concrete scenario, pool `{1000, 1000, 0}` and input `100`. -/
theorem claim_C1_swap_pricing_witness :
    swap_a_for_b (some { token_a_reserve := 1000, token_b_reserve := 1000, total_swaps := 0 }) 100 =
      .ok (some { token_a_reserve := 1000 + 100,
                  token_b_reserve := 1000 - ((100 * 1000 : Int)).fdiv (1000 + 100),
                  total_swaps := 0 + 1 },
           ((100 * 1000 : Int)).fdiv (1000 + 100)) :=
  claim_C1_swap_pricing.1 { token_a_reserve := 1000, token_b_reserve := 1000, total_swaps := 0 }
    100 (by decide) (by decide) (by decide) (by decide) (by decide)

/-- C2: a successful swap from an Active pool returns an amount in
`[0, opposite_reserve_before)` and stores exactly the record with the input
added to one reserve, the output subtracted from the other, and the swap
counter incremented. -/
theorem claim_C2_swap_bounds_post :
    (∀ (p : LiquidityPool) (x : Int) (s' : Option LiquidityPool) (out : Int),
      Active p → 0 < x → swap_a_for_b (some p) x = .ok (s', out) →
      0 ≤ out ∧ out < p.token_b_reserve ∧
      s' = some { token_a_reserve := p.token_a_reserve + x,
                  token_b_reserve := p.token_b_reserve - out,
                  total_swaps := p.total_swaps + 1 }) ∧
    (∀ (p : LiquidityPool) (y : Int) (s' : Option LiquidityPool) (out : Int),
      Active p → 0 < y → swap_b_for_a (some p) y = .ok (s', out) →
      0 ≤ out ∧ out < p.token_a_reserve ∧
      s' = some { token_a_reserve := p.token_a_reserve - out,
                  token_b_reserve := p.token_b_reserve + y,
                  total_swaps := p.total_swaps + 1 }) := by
  constructor
  · intro p x s' out hA hx h
    obtain ⟨-, -, -, -, hs'⟩ := swap_a_for_b_ok_inv h
    subst hs'
    obtain ⟨-, h0, hlt, -, -, -, -⟩ := swap_a_for_b_active_post hA h
    exact ⟨h0, hlt, rfl⟩
  · intro p y s' out hA hy h
    obtain ⟨-, -, -, -, hs'⟩ := swap_b_for_a_ok_inv h
    subst hs'
    obtain ⟨-, h0, hlt, -, -, -, -⟩ := swap_b_for_a_active_post hA h
    exact ⟨h0, hlt, rfl⟩

/-- C2 witness: the bounds and post-state instantiated on the pool
`{1000, 1000, 0}` with input `100` (output `90`). -/
theorem claim_C2_swap_bounds_post_witness :
    (0:Int) ≤ 90 ∧ (90:Int) < 1000 ∧
    (some { token_a_reserve := 1100, token_b_reserve := 910, total_swaps := 1 }
      : Option LiquidityPool) =
      some { token_a_reserve := 1000 + 100, token_b_reserve := 1000 - 90,
             total_swaps := 0 + 1 } :=
  claim_C2_swap_bounds_post.1 { token_a_reserve := 1000, token_b_reserve := 1000, total_swaps := 0 }
    100 (some { token_a_reserve := 1100, token_b_reserve := 910, total_swaps := 1 }) 90
    (by decide) (by decide) (by decide)

/-- C3: the reserve product never decreases across a successful swap in
either direction from an Active pool, and hence not across the round trip
`swap_a_for_b(n)` followed by `swap_b_for_a` of the amount just received. -/
theorem claim_C3_product_nondecreasing :
    (∀ (p p' : LiquidityPool) (x out : Int), Active p →
      swap_a_for_b (some p) x = .ok (some p', out) →
      reserveProduct p ≤ reserveProduct p') ∧
    (∀ (p p' : LiquidityPool) (y out : Int), Active p →
      swap_b_for_a (some p) y = .ok (some p', out) →
      reserveProduct p ≤ reserveProduct p') ∧
    (∀ (p p1 p2 : LiquidityPool) (n m k : Int), Active p →
      swap_a_for_b (some p) n = .ok (some p1, m) →
      swap_b_for_a (some p1) m = .ok (some p2, k) →
      reserveProduct p ≤ reserveProduct p2) := by
  refine ⟨?_, ?_, ?_⟩
  · intro p p' x out hA h
    exact (swap_a_for_b_active_post hA h).2.2.2.2.2.2
  · intro p p' y out hA h
    exact (swap_b_for_a_active_post hA h).2.2.2.2.2.2
  · intro p p1 p2 n m k hA h1 h2
    obtain ⟨-, -, -, -, -, hA1, hle1⟩ := swap_a_for_b_active_post hA h1
    obtain ⟨-, -, -, -, -, -, hle2⟩ := swap_b_for_a_active_post hA1 h2
    exact le_trans hle1 hle2

/-- C3 witness: the round trip from `{1000, 1000, 0}` with `n = 100`
(received amount `m = 90`, second output `99`) does not shrink the
product. -/
theorem claim_C3_product_nondecreasing_witness :
    reserveProduct { token_a_reserve := 1000, token_b_reserve := 1000, total_swaps := 0 } ≤
      reserveProduct { token_a_reserve := 1001, token_b_reserve := 1000, total_swaps := 2 } :=
  claim_C3_product_nondecreasing.2.2
    { token_a_reserve := 1000, token_b_reserve := 1000, total_swaps := 0 }
    { token_a_reserve := 1100, token_b_reserve := 910, total_swaps := 1 }
    { token_a_reserve := 1001, token_b_reserve := 1000, total_swaps := 2 }
    100 90 99 (by decide) (by decide) (by decide)

/-- C4: when the intermediate multiplication of the pricing formula leaves
the signed 128-bit range the swap aborts with an overflow error rather than
silently wrapping, and every successfully returned amount equals the exact
truncating division of the pricing formula on the pre-update reserves. -/
theorem claim_C4_no_silent_wrap :
    (∀ (p : LiquidityPool) (x : Int), 0 < x →
      p.token_a_reserve ≠ 0 → p.token_b_reserve ≠ 0 →
      ¬(i128Min ≤ x * p.token_b_reserve ∧ x * p.token_b_reserve ≤ i128Max) →
      swap_a_for_b (some p) x = .error .Overflow) ∧
    (∀ (p : LiquidityPool) (y : Int), 0 < y →
      p.token_a_reserve ≠ 0 → p.token_b_reserve ≠ 0 →
      ¬(i128Min ≤ y * p.token_a_reserve ∧ y * p.token_a_reserve ≤ i128Max) →
      swap_b_for_a (some p) y = .error .Overflow) ∧
    (∀ (p : LiquidityPool) (x : Int) (s' : Option LiquidityPool) (out : Int),
      swap_a_for_b (some p) x = .ok (s', out) →
      out = (x * p.token_b_reserve).tdiv (p.token_a_reserve + x)) ∧
    (∀ (p : LiquidityPool) (y : Int) (s' : Option LiquidityPool) (out : Int),
      swap_b_for_a (some p) y = .ok (s', out) →
      out = (y * p.token_a_reserve).tdiv (p.token_b_reserve + y)) := by
  refine ⟨?_, ?_, ?_, ?_⟩
  · intro p x hx ha hb hov
    exact swap_a_for_b_mul_overflow hx ha hb hov
  · intro p y hy ha hb hov
    exact swap_b_for_a_mul_overflow hy ha hb hov
  · intro p x s' out h
    exact (swap_a_for_b_ok_inv h).2.2.2.1
  · intro p y s' out h
    exact (swap_b_for_a_ok_inv h).2.2.2.1

/-- C4 witness: the pool `{1, i128Max, 0}` with input `2` overflows the
multiplication and the call aborts with an overflow error. -/
theorem claim_C4_no_silent_wrap_witness :
    swap_a_for_b (some { token_a_reserve := 1, token_b_reserve := i128Max, total_swaps := 0 }) 2 =
      .error .Overflow :=
  claim_C4_no_silent_wrap.1 { token_a_reserve := 1, token_b_reserve := i128Max, total_swaps := 0 }
    2 (by decide) (by decide) (by decide) (by decide)

/-- C5 (counterexample): the guard compares each reserve with zero only, so
the corrupted record `{-5, 1000, 0}` passes it and `swap_a_for_b(1)` runs the
formula (with truncating division on a negative denominator), mutating the
record and returning `-250` instead of failing with `PoolNotInitialized`. -/
theorem claim_C5_counterexample :
    swap_a_for_b (some { token_a_reserve := -5, token_b_reserve := 1000, total_swaps := 0 }) 1 =
      .ok (some { token_a_reserve := -4, token_b_reserve := 1250, total_swaps := 1 }, -250) ∧
    swap_a_for_b (some { token_a_reserve := -5, token_b_reserve := 1000, total_swaps := 0 }) 1 ≠
      .error .PoolNotInitialized := by
  constructor <;> decide

/-- C5 (amended): for every stored state in which the record is absent or
either reserve equals zero, both swaps with any positive input fail with
`PoolNotInitialized` (and, the call aborting, mutate nothing); a negative
reserve planted by external corruption is not caught, because the guard
tests equality with zero rather than strict positivity. -/
theorem claim_C5_uninitialized_guard :
    ∀ (s : Option LiquidityPool) (x : Int), 0 < x →
      ((view_pool s).token_a_reserve = 0 ∨ (view_pool s).token_b_reserve = 0) →
      swap_a_for_b s x = .error .PoolNotInitialized ∧
      swap_b_for_a s x = .error .PoolNotInitialized := by
  intro s x hx hz
  exact ⟨swap_a_for_b_zero_reserve hx hz, swap_b_for_a_zero_reserve hx hz⟩

/-- C5 witness: both swaps fail with `PoolNotInitialized` on the absent
record with input `1`. -/
theorem claim_C5_uninitialized_guard_witness :
    swap_a_for_b none 1 = .error .PoolNotInitialized ∧
    swap_b_for_a none 1 = .error .PoolNotInitialized :=
  claim_C5_uninitialized_guard none 1 (by decide) (by decide)

/-- C6: whenever a record is present, `initialize_pool` fails with
`AlreadyInitialized` whatever the record's fields and whatever the
arguments; the call aborts, so the record is unchanged. -/
theorem claim_C6_reinit_blocked (p : LiquidityPool) (token_a_amount token_b_amount : Int) :
    initialize_pool (some p) token_a_amount token_b_amount = .error .AlreadyInitialized :=
  rfl

/-- C7: with no record stored, `initialize_pool` rejects any argument pair
with a non-positive component with `InvalidAmount`, writing nothing. -/
theorem claim_C7_init_invalid_amount (token_a_amount token_b_amount : Int)
    (h : token_a_amount ≤ 0 ∨ token_b_amount ≤ 0) :
    initialize_pool none token_a_amount token_b_amount = .error .InvalidAmount := by
  unfold initialize_pool
  rw [if_pos h]

/-- C7 witness: `initialize_pool(0, 5)` fails with `InvalidAmount`. -/
theorem claim_C7_init_invalid_amount_witness :
    initialize_pool none 0 5 = .error .InvalidAmount :=
  claim_C7_init_invalid_amount 0 5 (by decide)

/-- C8: with no record stored and both arguments positive,
`initialize_pool` writes exactly the record with the given reserves and a
zero swap counter, and `view_pool` then returns that record. -/
theorem claim_C8_init_writes_record (a0 b0 : Int) (ha : 0 < a0) (hb : 0 < b0) :
    initialize_pool none a0 b0 =
      .ok (some { token_a_reserve := a0, token_b_reserve := b0, total_swaps := 0 }) ∧
    view_pool (some { token_a_reserve := a0, token_b_reserve := b0, total_swaps := 0 }) =
      { token_a_reserve := a0, token_b_reserve := b0, total_swaps := 0 } := by
  constructor
  · unfold initialize_pool
    rw [if_neg (by omega)]
  · rfl

/-- C8 witness: `initialize_pool(1000, 1000)` stores `{1000, 1000, 0}` and
`view_pool` reads it back. -/
theorem claim_C8_init_writes_record_witness :
    initialize_pool none 1000 1000 =
      .ok (some { token_a_reserve := 1000, token_b_reserve := 1000, total_swaps := 0 }) ∧
    view_pool (some { token_a_reserve := 1000, token_b_reserve := 1000, total_swaps := 0 }) =
      { token_a_reserve := 1000, token_b_reserve := 1000, total_swaps := 0 } :=
  claim_C8_init_writes_record 1000 1000 (by decide) (by decide)

/-- C9: `view_pool` never fails: with a record present it returns exactly
the persisted record, and with none it returns the all-zero default; being a
pure read it leaves the stored state unchanged. -/
theorem claim_C9_view_pool_total :
    (∀ p : LiquidityPool, view_pool (some p) = p) ∧
    view_pool none = { token_a_reserve := 0, token_b_reserve := 0, total_swaps := 0 } :=
  ⟨fun _ => rfl, rfl⟩

/-- C10: both swaps validate the input amount before reading the pool, so a
non-positive amount yields `InvalidAmount` in every state (initialized or
not), and `PoolNotInitialized` can only be reported for a strictly positive
input amount. -/
theorem claim_C10_amount_validated_first :
    (∀ (s : Option LiquidityPool) (x : Int), x ≤ 0 →
      swap_a_for_b s x = .error .InvalidAmount ∧
      swap_b_for_a s x = .error .InvalidAmount) ∧
    (∀ (s : Option LiquidityPool) (x : Int),
      swap_a_for_b s x = .error .PoolNotInitialized → 0 < x) ∧
    (∀ (s : Option LiquidityPool) (x : Int),
      swap_b_for_a s x = .error .PoolNotInitialized → 0 < x) := by
  refine ⟨?_, ?_, ?_⟩
  · intro s x hx
    exact ⟨swap_a_for_b_nonpos hx, swap_b_for_a_nonpos hx⟩
  · intro s x h
    by_contra hc
    push_neg at hc
    rw [swap_a_for_b_nonpos hc] at h
    exact absurd h (by decide)
  · intro s x h
    by_contra hc
    push_neg at hc
    rw [swap_b_for_a_nonpos hc] at h
    exact absurd h (by decide)

/-- C10 witness: on the uninitialized store, input `-1` yields
`InvalidAmount` (not `PoolNotInitialized`), and the `PoolNotInitialized`
outcome at input `1` certifies a positive amount. -/
theorem claim_C10_amount_validated_first_witness :
    swap_a_for_b none (-1) = .error .InvalidAmount ∧ (0:Int) < 1 :=
  ⟨(claim_C10_amount_validated_first.1 none (-1) (by decide)).1,
   claim_C10_amount_validated_first.2.1 none 1 (by decide)⟩

end TokenSwap
